import Mathlib

/-!
Shallow embedding of `src/code_gen.rs` from the `entity_generator` repository:
a schema-driven scaffolding generator that, given a parsed data model, emits
TypeScript artifact texts (domain entity, mapper, abstract repository and a
Prisma repository implementation) together with their destination paths.

Strings are modelled as Lean `String` (a list of characters).  Character
classification (`char::is_uppercase`, `char::to_ascii_lowercase` and
`char::to_lowercase` in the Rust source) is modelled at ASCII, via Lean's
`Char.isUpper` and `Char.toLower`, which agree with the Rust functions on all
ASCII characters; model and field names are ASCII identifiers per the input
contract.  Literal brace characters in generated text are written with the
escapes `\x7b` and `\x7d`.

The filesystem writer is an external collaborator: `write_modules` is modelled
as a pure function returning the list of (path, contents) pairs it would
persist, with `none` standing for the fatal `unreachable` panic branch.
-/

namespace CodeGen

/-- Modelled from the spec: one attribute of a `Model`, as produced by the
external schema parser (`crate::parser::Field`, not under `src/`): a name, a
declared type tag, and an optionality flag.  The shape matches every use in
`code_gen.rs` (`field.name`, `field.field_type.as_str()`, `field.is_optional`). -/
structure Field where
  name : String
  field_type : String
  is_optional : Bool
deriving DecidableEq, Repr

/-- Modelled from the spec: one schema entity, as produced by the external
schema parser (`crate::parser::Model`, not under `src/`): a name and an ordered
sequence of fields, matching every use in `code_gen.rs`. -/
structure Model where
  name : String
  fields : List Field
deriving DecidableEq, Repr

/-- The artifact kinds of `code_gen.rs` (`enum ModuleType`). -/
inductive ModuleType where
  | Entity
  | Mapper
  | Repository
  | PrismaRepository
deriving DecidableEq, Repr

/-- The repository operations of `code_gen.rs` (`enum RepositoryOperations`). -/
inductive RepositoryOperations where
  | Create
  | Find
  | FindMany
  | Delete
  | Update
deriving DecidableEq, Repr

/-- Embeds the constant `ENTITY_PATH` of `code_gen.rs`. -/
def ENTITY_PATH : String := "domain/entity/"

/-- Embeds the constant `MAPPER_PATH` of `code_gen.rs`. -/
def MAPPER_PATH : String := "infra/database/prisma/mappers"

/-- Embeds the constant `REPOSITORY_PATH` of `code_gen.rs`. -/
def REPOSITORY_PATH : String := "app/repositories"

/-- Embeds the constant `PRISMA_REPOSITORY_PATH` of `code_gen.rs`. -/
def PRISMA_REPOSITORY_PATH : String := "infra/database/prisma"

/-- Embeds `lowercase_first_char` of `code_gen.rs`: lowercase the first
character, keep the rest (Rust `first.to_lowercase()` modelled at ASCII). -/
def lowercase_first_char (s : String) : String :=
  match s.data with
  | [] => ""
  | first :: rest => String.mk (first.toLower :: rest)

/-- Embeds `build_type_string` of `code_gen.rs`: a field declaration line,
optionally `readonly`, with `" | null"` appended when the field is optional. -/
def build_type_string (field_type field_name : String) (is_optional read_only : Bool) :
    String :=
  let formatted_field_type :=
    if read_only then
      "\n\treadonly " ++ field_name ++ ": " ++ field_type
    else
      "\n\t" ++ field_name ++ ": " ++ field_type
  if is_optional then formatted_field_type ++ " | null" else formatted_field_type

/-- Embeds `get_field_with_type` of `code_gen.rs`: the `match` on the field's
type tag, rendered as the equivalent chain of string-equality tests. -/
def get_field_with_type (field : Field) (read_only : Bool) : Option String :=
  if field.field_type = "Float" ∨ field.field_type = "Int" ∨
      field.field_type = "Decimal" ∨ field.field_type = "BigInt" then
    some (build_type_string "number" field.name field.is_optional read_only)
  else if field.field_type = "String" then
    some (build_type_string "string" field.name field.is_optional read_only)
  else if field.field_type = "Boolean" then
    some (build_type_string "boolean" field.name field.is_optional read_only)
  else if field.field_type = "DateTime" then
    some (build_type_string "Date" field.name field.is_optional read_only)
  else
    none

/-- Embeds `build_repository_methods` of `code_gen.rs`: the text of one
generated repository method body, branching on `has_mapper` exactly as the
source does (the `Delete` arm ignores `has_mapper`). -/
def build_repository_methods (model : Model) (has_mapper : Bool)
    (op : RepositoryOperations) : String :=
  match op with
  | RepositoryOperations.Create =>
    let method := "async create(data: " ++ model.name ++ "): Promise<" ++ model.name ++ "> \x7b\n"
    if has_mapper then
      method ++ "    const result = await this.prisma." ++ lowercase_first_char model.name ++
        ".create(\x7b\n      data,\n    \x7d)\n\n    return " ++ model.name ++
        "Mapper.toDomain(result)\n  \x7d"
    else
      method ++ "      return this.prisma." ++ lowercase_first_char model.name ++
        ".create(\x7b\n        data,\n      \x7d)\n  \x7d"
  | RepositoryOperations.Delete =>
    "async delete(id: string) \x7b\n    await this.prisma." ++
      lowercase_first_char model.name ++
      ".update(\x7b\n      where: \x7b\n        id,\n      \x7d,\n      data: \x7b\n        deletedAt: new Date(),\n      \x7d,\n    \x7d)\n  \x7d"
  | RepositoryOperations.Find =>
    let method := "async find(data: Partial<" ++ model.name ++ ">): Promise<" ++ model.name ++ "> \x7b\n"
    if has_mapper then
      method ++ "    const result = await this.prisma." ++ lowercase_first_char model.name ++
        ".findFirst(\x7b\n      where: data,\n    \x7d)\n\n    return " ++ model.name ++
        "Mapper.toDomain(result)\n  \x7d"
    else
      method ++ "      return this.prisma." ++ lowercase_first_char model.name ++
        ".findFirst(\x7b\n        where: data,\n      \x7d)\n  \x7d"
  | RepositoryOperations.FindMany =>
    let method := "async findMany(data: Partial<" ++ model.name ++ ">): Promise<" ++ model.name ++ "[]> \x7b\n"
    if has_mapper then
      method ++ "    const result = await this.prisma." ++ lowercase_first_char model.name ++
        ".findMany(\x7b\n      where: data,\n    \x7d)\n\n    return result.map(" ++ model.name ++
        "Mapper.toDomain)\n  \x7d"
    else
      method ++ "      return this.prisma." ++ lowercase_first_char model.name ++
        ".findMany(\x7b\n        where: data,\n      \x7d)\n  \x7d"
  | RepositoryOperations.Update =>
    let method := "async update(id: string, data: Partial<" ++ model.name ++ ">): Promise<" ++ model.name ++ "> \x7b\n"
    if has_mapper then
      method ++ "    const result = await this.prisma." ++ lowercase_first_char model.name ++
        ".update(\x7b\n      where: \x7b\n        id,\n      \x7d,\n      data,\n    \x7d)\n\n    return " ++
        model.name ++ "Mapper.toDomain(result)\n  \x7d"
    else
      method ++ "      return this.prisma." ++ lowercase_first_char model.name ++
        ".findMany(\x7b\n        where: data,\n      \x7d)\n  \x7d"

/-- Embeds `create_repository` of `code_gen.rs`: the pair of the abstract
repository text and the Prisma repository text. -/
def create_repository (model : Model) (has_mapper : Bool) : String × String :=
  let abstract_repository :=
    "export abstract class " ++ model.name ++ "Repository \x7b\n    abstract create(data: " ++
      model.name ++ "): Promise<" ++ model.name ++ ">\n\n    abstract find(data: Partial<" ++
      model.name ++ ">): Promise<" ++ model.name ++ ">\n\n    abstract findMany(data: Partial<" ++
      model.name ++ ">): Promise<" ++ model.name ++ "[]>\n\n    abstract update(id: string, data: Partial<" ++
      model.name ++ ">): Promise<" ++ model.name ++
      ">\n\n    abstract delete(id: string): Promise<void>\n\x7d"
  let prisma_repository :=
    "export class Prisma" ++ model.name ++ "Repository implements " ++ model.name ++
      "Repository \x7b\n    constructor(private readonly prisma: PrismaService) \x7b\x7d\n\n  " ++
      build_repository_methods model has_mapper RepositoryOperations.Create ++ "\n\n  " ++
      build_repository_methods model has_mapper RepositoryOperations.Find ++ "\n\n  " ++
      build_repository_methods model has_mapper RepositoryOperations.FindMany ++ "\n\n  " ++
      build_repository_methods model has_mapper RepositoryOperations.Update ++ "\n\n  " ++
      build_repository_methods model has_mapper RepositoryOperations.Delete ++ "\n\x7d"
  (abstract_repository, prisma_repository)

/-- Embeds the body of the per-field loop of `create_mapper` in `code_gen.rs`:
for a representable field, append the copy line, wrapping the value in
`Number(...)` exactly when the tag is `Decimal` or `BigInt`; otherwise leave
the accumulator unchanged. -/
def create_mapper_step (acc : String) (field : Field) : String :=
  if (get_field_with_type field false).isSome then
    if field.field_type = "Decimal" ∨ field.field_type = "BigInt" then
      acc ++ "\n\t\t\t" ++ field.name ++ ": Number(data." ++ field.name ++ "),"
    else
      acc ++ "\n\t\t\t" ++ field.name ++ ": data." ++ field.name ++ ","
  else acc

/-- Embeds `create_mapper` of `code_gen.rs`: the mapper class text with one
`toDomain` copy line per representable field, in field order. -/
def create_mapper (model : Model) : String :=
  let mapper :=
    "export class " ++ model.name ++ "Mapper \x7b\n\tstatic toDomain(data: Prisma" ++
      model.name ++ "): " ++ model.name ++ " \x7b\n\t\treturn new " ++ model.name ++ "(\x7b"
  let mapper := model.fields.foldl create_mapper_step mapper
  mapper ++ "\n\t\t\x7d)\n\t\x7d\n\x7d"

/-- Embeds the body of the per-field loops of `create_entity` in `code_gen.rs`:
append the parsed field declaration when the field is representable. -/
def create_entity_step (read_only : Bool) (acc : String) (field : Field) : String :=
  match get_field_with_type field read_only with
  | some parsed_field => acc ++ parsed_field
  | none => acc

/-- Embeds `create_entity` of `code_gen.rs`: the interface plus class text,
each listing the representable fields in field order. -/
def create_entity (model : Model) : String :=
  let entity_interface := "I" ++ model.name
  let entity := "export interface " ++ entity_interface ++ " \x7b"
  let entity := model.fields.foldl (create_entity_step false) entity
  let entity := entity ++ "\n\x7d\n\n"
  let entity := entity ++ "export class " ++ model.name ++ " implements " ++ entity_interface ++ " \x7b"
  let entity := model.fields.foldl (create_entity_step true) entity
  let param_name := lowercase_first_char model.name
  entity ++ "\n\n\tconstructor(" ++ param_name ++ ": " ++ entity_interface ++
    ") \x7b\n\t\tObject.assign(this, " ++ param_name ++ ")\n\t\x7d\n\x7d\n"

/-- Embeds the indexed character loop of `to_kebab_case` in `code_gen.rs`:
push a hyphen before an uppercase character at a positive index, then push the
character lowercased (Rust `to_ascii_lowercase`, which is `Char.toLower`). -/
def kebabAux : Nat → List Char → List Char
  | _, [] => []
  | i, ch :: rest =>
    (if ch.isUpper ∧ 0 < i then ['-'] else []) ++ (ch.toLower :: kebabAux (i + 1) rest)

/-- Embeds `to_kebab_case` of `code_gen.rs`. -/
def to_kebab_case (name : String) : String :=
  String.mk (kebabAux 0 name.data)

/-- Embeds `build_path` of `code_gen.rs`: pick the subdirectory constant and
the filename template by artifact kind, then format
`dir ++ "/" ++ module_path ++ path ++ "/" ++ file_name` (the directory is
modelled by its displayed string). -/
def build_path (dir : String) (module_path : String) (module_type : ModuleType)
    (model_name : String) : String :=
  let kebab_model_name := to_kebab_case model_name
  let pf : String × String :=
    match module_type with
    | ModuleType.Entity => (ENTITY_PATH, kebab_model_name ++ ".entity.ts")
    | ModuleType.Mapper => (MAPPER_PATH, kebab_model_name ++ ".mapper.ts")
    | ModuleType.Repository => (REPOSITORY_PATH, kebab_model_name ++ ".repository.ts")
    | ModuleType.PrismaRepository =>
      (PRISMA_REPOSITORY_PATH, "prisma-" ++ kebab_model_name ++ ".repository.ts")
  dir ++ "/" ++ module_path ++ pf.1 ++ "/" ++ pf.2

/-- Embeds the body of the per-module loop of `write_modules` in `code_gen.rs`,
for one requested kind: the (path, contents) pairs it writes, `none` for the
`unreachable` panic arm (a direct `PrismaRepository` request).  `has_mapper`
for a `Repository` request is `modules.contains(Mapper)` over the whole
requested list, passed in as `all`. -/
def write_modules_one (all : List ModuleType) (dir module_path : String) (model : Model) :
    ModuleType → Option (List (String × String))
  | ModuleType.Entity =>
    some [(build_path dir module_path ModuleType.Entity model.name, create_entity model)]
  | ModuleType.Mapper =>
    some [(build_path dir module_path ModuleType.Mapper model.name, create_mapper model)]
  | ModuleType.Repository =>
    let pair := create_repository model (decide (ModuleType.Mapper ∈ all))
    some [(build_path dir module_path ModuleType.Repository model.name, pair.1),
          (build_path dir module_path ModuleType.PrismaRepository model.name, pair.2)]
  | ModuleType.PrismaRepository => none

/-- Embeds the loop of `write_modules` over the requested list: concatenate
the writes of each requested kind, failing when any kind hits the panic arm. -/
def write_modules_go (all : List ModuleType) (dir module_path : String) (model : Model) :
    List ModuleType → Option (List (String × String))
  | [] => some []
  | m :: rest =>
    match write_modules_one all dir module_path model m with
    | none => none
    | some ws =>
      match write_modules_go all dir module_path model rest with
      | none => none
      | some rs => some (ws ++ rs)

/-- Embeds `write_modules` of `code_gen.rs` as a pure function: the list of
(path, contents) pairs handed to the filesystem writer, or `none` when the
run panics on a direct `PrismaRepository` request. -/
def write_modules (modules : List ModuleType) (dir module_path : String) (model : Model) :
    Option (List (String × String)) :=
  write_modules_go modules dir module_path model modules

/-- Concatenation of a list of strings, in order. -/
def strConcat : List String → String
  | [] => ""
  | s :: rest => s ++ strConcat rest

/-- Modelled from the spec: the type-mapping table of section 4.2 — Float,
Int, Decimal and BigInt map to the numeric type `number`, String to `string`,
Boolean to `boolean`, DateTime to `Date`, and any other tag is not
representable (`none`). -/
def mapType (tag : String) : Option String :=
  if tag = "Float" ∨ tag = "Int" ∨ tag = "Decimal" ∨ tag = "BigInt" then some "number"
  else if tag = "String" then some "string"
  else if tag = "Boolean" then some "boolean"
  else if tag = "DateTime" then some "Date"
  else none

/-- Modelled from the spec: a field is representable when its type tag maps to
a concrete target type. -/
def representable (f : Field) : Bool := (mapType f.field_type).isSome

/-- Modelled from the spec: the declared type of a representable field — the
mapped base type, unioned with `null` exactly when the field is optional. -/
def typeDecl (f : Field) : String :=
  (mapType f.field_type).getD "" ++ (if f.is_optional then " | null" else "")

/-- Modelled from the spec: one field declaration line, `name: Type`, with a
`readonly` modifier in the class variant; the name and the declared type are
identical in the interface and the class variants. -/
def fieldDecl (f : Field) (read_only : Bool) : String :=
  (if read_only then "\n\treadonly " else "\n\t") ++ f.name ++ ": " ++ typeDecl f

/-- Modelled from the spec: one mapper copy line — the value is wrapped in a
narrowing `Number(...)` conversion exactly for the tags Decimal and BigInt,
and copied through unchanged for every other representable tag. -/
def mapperCopyLine (f : Field) : String :=
  if f.field_type = "Decimal" ∨ f.field_type = "BigInt" then
    "\n\t\t\t" ++ f.name ++ ": Number(data." ++ f.name ++ "),"
  else
    "\n\t\t\t" ++ f.name ++ ": data." ++ f.name ++ ","

/-- Modelled from the spec: insert a hyphen before every uppercase character
except the first character (indexed pass, no case change). -/
def hyphenAux : Nat → List Char → List Char
  | _, [] => []
  | i, ch :: rest =>
    (if ch.isUpper ∧ 0 < i then ['-'] else []) ++ (ch :: hyphenAux (i + 1) rest)

/-- Modelled from the spec: the kebab-case description — insert a hyphen
before every uppercase character except the first, then lowercase the whole
string. -/
def specKebab (s : String) : String :=
  String.mk ((hyphenAux 0 s.data).map Char.toLower)

/-- Collapses every run of consecutive slashes to a single slash (character
pass). -/
def collapseSlashesAux : List Char → List Char
  | [] => []
  | [c] => [c]
  | c :: d :: rest =>
    if c = '/' ∧ d = '/' then collapseSlashesAux (d :: rest)
    else c :: collapseSlashesAux (d :: rest)

/-- Collapses every run of consecutive slashes in a path to a single slash,
the standard POSIX path equivalence. -/
def collapseSlashes (s : String) : String :=
  String.mk (collapseSlashesAux s.data)

theorem get_field_with_type_eq (f : Field) (ro : Bool) :
    get_field_with_type f ro = if representable f then some (fieldDecl f ro) else none := by
  by_cases h1 : f.field_type = "Float" ∨ f.field_type = "Int" ∨
      f.field_type = "Decimal" ∨ f.field_type = "BigInt"
  · simp only [get_field_with_type, representable, mapType, fieldDecl, typeDecl, h1, if_true,
      Option.isSome_some, Option.getD_some, build_type_string]
    cases ro <;> cases hop : f.is_optional <;> simp [String.append_assoc]
  · by_cases h2 : f.field_type = "String"
    · simp only [get_field_with_type, representable, mapType, fieldDecl, typeDecl, h1, h2,
        if_true, if_false, Option.isSome_some, Option.getD_some, build_type_string]
      cases ro <;> cases hop : f.is_optional <;> simp [String.append_assoc]
    · by_cases h3 : f.field_type = "Boolean"
      · simp only [get_field_with_type, representable, mapType, fieldDecl, typeDecl, h1, h2, h3,
          if_true, if_false, Option.isSome_some, Option.getD_some, build_type_string]
        cases ro <;> cases hop : f.is_optional <;> simp [String.append_assoc]
      · by_cases h4 : f.field_type = "DateTime"
        · simp only [get_field_with_type, representable, mapType, fieldDecl, typeDecl, h1, h2, h3,
            h4, if_true, if_false, Option.isSome_some, Option.getD_some, build_type_string]
          cases ro <;> cases hop : f.is_optional <;> simp [String.append_assoc]
        · simp [get_field_with_type, representable, mapType, h1, h2, h3, h4]

theorem isSome_get_field_with_type (f : Field) (ro : Bool) :
    (get_field_with_type f ro).isSome = representable f := by
  rw [get_field_with_type_eq]
  by_cases h : representable f = true <;> simp [h]

theorem filterMap_get_field_with_type (ro : Bool) (l : List Field) :
    l.filterMap (fun f => get_field_with_type f ro)
      = (l.filter (fun f => representable f)).map (fun f => fieldDecl f ro) := by
  induction l with
  | nil => rfl
  | cons f rest ih =>
    rw [List.filterMap_cons, get_field_with_type_eq f ro, List.filter_cons]
    by_cases h : representable f = true <;> simp [h, ih]

theorem foldl_create_entity_step (ro : Bool) (l : List Field) (init : String) :
    l.foldl (create_entity_step ro) init
      = init ++ strConcat (l.filterMap (fun f => get_field_with_type f ro)) := by
  induction l generalizing init with
  | nil => simp [strConcat]
  | cons f rest ih =>
    rw [List.foldl_cons, ih]
    cases h : get_field_with_type f ro <;>
      simp [create_entity_step, h, strConcat, String.append_assoc]

theorem foldl_create_mapper_step (l : List Field) (init : String) :
    l.foldl create_mapper_step init
      = init ++ strConcat ((l.filter (fun f => representable f)).map mapperCopyLine) := by
  induction l generalizing init with
  | nil => simp [strConcat]
  | cons f rest ih =>
    rw [List.foldl_cons, ih]
    by_cases hr : representable f = true
    · by_cases hd : f.field_type = "Decimal" ∨ f.field_type = "BigInt" <;>
        simp [create_mapper_step, isSome_get_field_with_type, hr, hd, mapperCopyLine,
          List.filter_cons, strConcat, String.append_assoc]
    · simp [create_mapper_step, isSome_get_field_with_type, hr, List.filter_cons, strConcat]

theorem char_toNat_ofNat (n : Nat) (h : n.isValidChar) : (Char.ofNat n).toNat = n := by
  simp [Char.ofNat, dif_pos h, Char.ofNatAux, Char.toNat, UInt32.toNat]

theorem char_isUpper_iff (c : Char) : c.isUpper = true ↔ 65 ≤ c.toNat ∧ c.toNat ≤ 90 := by
  simp only [Char.isUpper, Bool.and_eq_true, decide_eq_true_eq, ge_iff_le, Char.toNat]
  constructor
  · rintro ⟨h1, h2⟩
    exact ⟨h1, h2⟩
  · rintro ⟨h1, h2⟩
    exact ⟨h1, h2⟩

theorem char_isUpper_toLower (c : Char) : (c.toLower).isUpper = false := by
  unfold Char.toLower
  by_cases h : c.toNat ≥ 65 ∧ c.toNat ≤ 90
  · rw [if_pos h]
    have hv : (c.toNat + 32).isValidChar := Or.inl (by omega)
    rw [Bool.eq_false_iff]
    intro hup
    have hb := (char_isUpper_iff _).1 hup
    rw [char_toNat_ofNat _ hv] at hb
    omega
  · rw [if_neg h]
    rw [Bool.eq_false_iff]
    intro hup
    exact h ((char_isUpper_iff c).1 hup)

theorem char_toLower_eq_self (c : Char) (h : c.isUpper = false) : c.toLower = c := by
  unfold Char.toLower
  rw [if_neg]
  intro hc
  rw [Bool.eq_false_iff] at h
  exact h ((char_isUpper_iff c).2 hc)

theorem kebabAux_eq_hyphenAux (l : List Char) (i : Nat) :
    kebabAux i l = (hyphenAux i l).map Char.toLower := by
  induction l generalizing i with
  | nil => rfl
  | cons c rest ih =>
    by_cases h : c.isUpper = true ∧ 0 < i <;>
      simp [kebabAux, hyphenAux, h, ih, show Char.toLower (Char.ofNat 45) = Char.ofNat 45 from by decide]

theorem kebabAux_no_upper (l : List Char) (i : Nat) :
    ∀ c ∈ kebabAux i l, c.isUpper = false := by
  induction l generalizing i with
  | nil => simp [kebabAux]
  | cons c rest ih =>
    intro d hd
    simp only [kebabAux, List.mem_append, List.mem_cons] at hd
    rcases hd with h1 | h2 | h3
    · split at h1
      · simp only [List.mem_singleton] at h1
        subst h1
        decide
      · simp at h1
    · subst h2
      exact char_isUpper_toLower c
    · exact ih (i + 1) d h3

theorem kebabAux_fixed_of_no_upper (l : List Char) (i : Nat)
    (h : ∀ c ∈ l, c.isUpper = false) : kebabAux i l = l := by
  induction l generalizing i with
  | nil => rfl
  | cons c rest ih =>
    have hc := h c (List.mem_cons_self c rest)
    simp [kebabAux, hc, char_toLower_eq_self c hc,
      ih (i + 1) (fun d hd => h d (List.mem_cons_of_mem c hd))]

theorem to_kebab_case_eq_specKebab (s : String) : to_kebab_case s = specKebab s := by
  simp [to_kebab_case, specKebab, kebabAux_eq_hyphenAux]

theorem mk_data (s : String) : String.mk s.data = s := by
  cases s
  rfl

/-- C1: for every model, the generated entity text is the interface named
`I` followed by the model name and the class named by the model name, and the
two declare exactly the same field list — precisely the representable fields
of the model, in the model's field order, with matching names and mapped
types (the class variant only adds the `readonly` modifier); fields with an
unrepresentable type tag appear in neither block. -/
theorem C1_entity_interface_class_field_parity (model : Model) :
    create_entity model =
      "export interface " ++ ("I" ++ model.name) ++ " \x7b"
        ++ strConcat ((model.fields.filter (fun f => representable f)).map
            (fun f => fieldDecl f false))
        ++ "\n\x7d\n\n"
        ++ "export class " ++ model.name ++ " implements " ++ ("I" ++ model.name) ++ " \x7b"
        ++ strConcat ((model.fields.filter (fun f => representable f)).map
            (fun f => fieldDecl f true))
        ++ "\n\n\tconstructor(" ++ lowercase_first_char model.name ++ ": " ++ ("I" ++ model.name)
        ++ ") \x7b\n\t\tObject.assign(this, " ++ lowercase_first_char model.name
        ++ ")\n\t\x7d\n\x7d\n" := by
  simp only [create_entity]
  rw [foldl_create_entity_step false, foldl_create_entity_step true,
    filterMap_get_field_with_type, filterMap_get_field_with_type]

/-- C2: the generated type declaration of every field follows the fixed
mapping table embodied in `mapType` — Float, Int, Decimal and BigInt map to
`number`, String to `string`, Boolean to `boolean`, DateTime to `Date`, any
other tag produces no declaration — and an optional field's declared type is
the base type unioned with `null`, while a required field's is the base type
alone. -/
theorem C2_type_mapping_table (f : Field) (ro : Bool) :
    (get_field_with_type f ro
      = (mapType f.field_type).map (fun base =>
          (if ro then "\n\treadonly " else "\n\t") ++ f.name ++ ": "
            ++ (if f.is_optional then base ++ " | null" else base)))
    ∧ mapType "Float" = some "number"
    ∧ mapType "Int" = some "number"
    ∧ mapType "Decimal" = some "number"
    ∧ mapType "BigInt" = some "number"
    ∧ mapType "String" = some "string"
    ∧ mapType "Boolean" = some "boolean"
    ∧ mapType "DateTime" = some "Date"
    ∧ (∀ tag : String,
        tag ∉ (["Float", "Int", "Decimal", "BigInt", "String", "Boolean", "DateTime"] :
          List String) → mapType tag = none) := by
  refine ⟨?_, by decide, by decide, by decide, by decide, by decide, by decide, by decide, ?_⟩
  · rw [get_field_with_type_eq]
    by_cases h : representable f = true
    · obtain ⟨base, hb⟩ := Option.isSome_iff_exists.1 h
      simp only [h, if_true, hb, Option.map_some, fieldDecl, typeDecl, Option.getD_some]
      cases hop : f.is_optional <;> simp
    · rw [representable, Option.not_isSome_iff_eq_none] at h
      simp [representable, h]
  · intro tag h
    simp only [List.mem_cons, List.not_mem_nil, or_false, not_or] at h
    obtain ⟨h1, h2, h3, h4, h5, h6, h7⟩ := h
    simp [mapType, h1, h2, h3, h4, h5, h6, h7]

/-- C2 witness: the tag `Relation` is outside the table and maps to no
declaration. -/
theorem C2_type_mapping_table_witness :
    ("Relation" : String) ∉ (["Float", "Int", "Decimal", "BigInt", "String", "Boolean",
      "DateTime"] : List String) ∧ mapType "Relation" = none :=
  ⟨by decide,
    (C2_type_mapping_table ⟨"author", "Relation", false⟩ false).2.2.2.2.2.2.2.2 "Relation"
      (by decide)⟩

/-- C3: for every model, the generated mapper class is named by the model
name followed by `Mapper`, and its `toDomain` body copies exactly the
representable fields from the persistence record into the domain constructor,
in declaration order, wrapping the value in a narrowing `Number(...)`
conversion exactly for fields tagged Decimal or BigInt and using a plain
pass-through copy for every other representable field; unrepresentable
fields are skipped entirely. -/
theorem C3_mapper_copies_representable_fields (model : Model) :
    create_mapper model =
      "export class " ++ model.name ++ "Mapper \x7b\n\tstatic toDomain(data: Prisma"
        ++ model.name ++ "): " ++ model.name ++ " \x7b\n\t\treturn new " ++ model.name ++ "(\x7b"
        ++ strConcat ((model.fields.filter (fun f => representable f)).map mapperCopyLine)
        ++ "\n\t\t\x7d)\n\t\x7d\n\x7d" := by
  simp only [create_mapper]
  rw [foldl_create_mapper_step]

/-- C4: with `has_mapper` true, every generated read/write method body
(create, find, findMany, update) delegates to the persistence client through
`this.prisma.` followed by the lower-cased model name as the collection
accessor, and pipes the raw result through the model's `Mapper.toDomain`
before returning — element-wise via `map` for findMany. -/
theorem C4_repository_methods_with_mapper (model : Model) :
    build_repository_methods model true RepositoryOperations.Create
      = "async create(data: " ++ model.name ++ "): Promise<" ++ model.name ++ "> \x7b\n"
        ++ "    const result = await this.prisma." ++ lowercase_first_char model.name
        ++ ".create(\x7b\n      data,\n    \x7d)\n\n    return " ++ model.name
        ++ "Mapper.toDomain(result)\n  \x7d"
    ∧ build_repository_methods model true RepositoryOperations.Find
      = "async find(data: Partial<" ++ model.name ++ ">): Promise<" ++ model.name ++ "> \x7b\n"
        ++ "    const result = await this.prisma." ++ lowercase_first_char model.name
        ++ ".findFirst(\x7b\n      where: data,\n    \x7d)\n\n    return " ++ model.name
        ++ "Mapper.toDomain(result)\n  \x7d"
    ∧ build_repository_methods model true RepositoryOperations.FindMany
      = "async findMany(data: Partial<" ++ model.name ++ ">): Promise<" ++ model.name ++ "[]> \x7b\n"
        ++ "    const result = await this.prisma." ++ lowercase_first_char model.name
        ++ ".findMany(\x7b\n      where: data,\n    \x7d)\n\n    return result.map(" ++ model.name
        ++ "Mapper.toDomain)\n  \x7d"
    ∧ build_repository_methods model true RepositoryOperations.Update
      = "async update(id: string, data: Partial<" ++ model.name ++ ">): Promise<" ++ model.name ++ "> \x7b\n"
        ++ "    const result = await this.prisma." ++ lowercase_first_char model.name
        ++ ".update(\x7b\n      where: \x7b\n        id,\n      \x7d,\n      data,\n    \x7d)\n\n    return "
        ++ model.name ++ "Mapper.toDomain(result)\n  \x7d" :=
  ⟨rfl, rfl, rfl, rfl⟩

/-- C5: with `has_mapper` false, the generated create, find and findMany
bodies call the persistence client directly and return its raw result, with
no mapper call in the produced text, and the generated update body issues a
find-many-style query filtered on `data` — identical in shape to the
findMany body — instead of an update-by-identifier call. -/
theorem C5_repository_methods_without_mapper (model : Model) :
    build_repository_methods model false RepositoryOperations.Create
      = "async create(data: " ++ model.name ++ "): Promise<" ++ model.name ++ "> \x7b\n"
        ++ "      return this.prisma." ++ lowercase_first_char model.name
        ++ ".create(\x7b\n        data,\n      \x7d)\n  \x7d"
    ∧ build_repository_methods model false RepositoryOperations.Find
      = "async find(data: Partial<" ++ model.name ++ ">): Promise<" ++ model.name ++ "> \x7b\n"
        ++ "      return this.prisma." ++ lowercase_first_char model.name
        ++ ".findFirst(\x7b\n        where: data,\n      \x7d)\n  \x7d"
    ∧ build_repository_methods model false RepositoryOperations.FindMany
      = "async findMany(data: Partial<" ++ model.name ++ ">): Promise<" ++ model.name ++ "[]> \x7b\n"
        ++ "      return this.prisma." ++ lowercase_first_char model.name
        ++ ".findMany(\x7b\n        where: data,\n      \x7d)\n  \x7d"
    ∧ build_repository_methods model false RepositoryOperations.Update
      = "async update(id: string, data: Partial<" ++ model.name ++ ">): Promise<" ++ model.name ++ "> \x7b\n"
        ++ "      return this.prisma." ++ lowercase_first_char model.name
        ++ ".findMany(\x7b\n        where: data,\n      \x7d)\n  \x7d" :=
  ⟨rfl, rfl, rfl, rfl⟩

/-- C6: for every model and both values of `has_mapper`, the generated delete
body is a soft delete — it calls the persistence client's `update` operation
filtered by the given id with `deletedAt: new Date()` as the data payload,
contains no return of a value, and invokes no hard-delete operation. -/
theorem C6_delete_is_soft_delete (model : Model) (has_mapper : Bool) :
    build_repository_methods model has_mapper RepositoryOperations.Delete
      = "async delete(id: string) \x7b\n    await this.prisma."
        ++ lowercase_first_char model.name
        ++ ".update(\x7b\n      where: \x7b\n        id,\n      \x7d,\n      data: \x7b\n        deletedAt: new Date(),\n      \x7d,\n    \x7d)\n  \x7d" :=
  rfl

/-- C8: the resolved output path is always the base dir, the module path, the
fixed subdirectory for the artifact kind, and the filename built from the
kebab-cased model name per the fixed table; in particular, for model
`OrderItem`, kind Entity, base dir `/out` and module path `billing/`, the
result is `/out/billing/domain/entity//order-item.entity.ts`, which collapses
to the equivalent normalized path `/out/billing/domain/entity/order-item.entity.ts`
(the doubled slash arises from the trailing slash of `ENTITY_PATH`). -/
theorem C8_build_path_convention :
    (∀ dir mp name, build_path dir mp ModuleType.Entity name
      = dir ++ "/" ++ mp ++ ENTITY_PATH ++ "/" ++ (to_kebab_case name ++ ".entity.ts"))
    ∧ (∀ dir mp name, build_path dir mp ModuleType.Mapper name
      = dir ++ "/" ++ mp ++ MAPPER_PATH ++ "/" ++ (to_kebab_case name ++ ".mapper.ts"))
    ∧ (∀ dir mp name, build_path dir mp ModuleType.Repository name
      = dir ++ "/" ++ mp ++ REPOSITORY_PATH ++ "/" ++ (to_kebab_case name ++ ".repository.ts"))
    ∧ (∀ dir mp name, build_path dir mp ModuleType.PrismaRepository name
      = dir ++ "/" ++ mp ++ PRISMA_REPOSITORY_PATH ++ "/"
          ++ ("prisma-" ++ to_kebab_case name ++ ".repository.ts"))
    ∧ build_path "/out" "billing/" ModuleType.Entity "OrderItem"
      = "/out/billing/domain/entity//order-item.entity.ts"
    ∧ collapseSlashes (build_path "/out" "billing/" ModuleType.Entity "OrderItem")
      = "/out/billing/domain/entity/order-item.entity.ts" :=
  ⟨fun _ _ _ => rfl, fun _ _ _ => rfl, fun _ _ _ => rfl, fun _ _ _ => rfl,
    by decide, by decide⟩

/-- C9: `to_kebab_case` inserts a hyphen before every uppercase character
except the first character and lowercases the whole string (proved as
agreement with the two-pass description `specKebab`); in particular
`UserProfile` becomes `user-profile`, `a` and the empty string are unchanged,
and single-character and all-lowercase inputs are unchanged beyond case
folding. -/
theorem C9_to_kebab_case_description :
    (∀ s : String, to_kebab_case s = specKebab s)
    ∧ to_kebab_case "UserProfile" = "user-profile"
    ∧ to_kebab_case "a" = "a"
    ∧ to_kebab_case "" = ""
    ∧ (∀ c : Char, to_kebab_case (String.mk [c]) = String.mk [c.toLower])
    ∧ (∀ s : String, (∀ c ∈ s.data, c.isUpper = false) → to_kebab_case s = s) := by
  refine ⟨to_kebab_case_eq_specKebab, by decide, by decide, by decide, ?_, ?_⟩
  · intro c
    simp [to_kebab_case, kebabAux]
  · intro s h
    rw [to_kebab_case, kebabAux_fixed_of_no_upper s.data 0 h, mk_data]

/-- C9 witness: the all-lowercase string `user` is left unchanged. -/
theorem C9_to_kebab_case_description_witness :
    (∀ c ∈ ("user" : String).data, c.isUpper = false) ∧ to_kebab_case "user" = "user" :=
  ⟨by decide, C9_to_kebab_case_description.2.2.2.2.2 "user" (by decide)⟩

/-- C10: on strings of ASCII characters, `to_kebab_case` is idempotent: its
output contains no uppercase character, so a second pass inserts no hyphen
and changes no case. -/
theorem C10_to_kebab_case_idempotent (s : String)
    (h : ∀ c ∈ s.data, c.toNat < 128) :
    to_kebab_case (to_kebab_case s) = to_kebab_case s := by
  show String.mk (kebabAux 0 (kebabAux 0 s.data)) = String.mk (kebabAux 0 s.data)
  exact congrArg String.mk
    (kebabAux_fixed_of_no_upper (kebabAux 0 s.data) 0 (kebabAux_no_upper s.data 0))

/-- C10 witness: idempotence at the ASCII input `UserProfile`. -/
theorem C10_to_kebab_case_idempotent_witness :
    (∀ c ∈ ("UserProfile" : String).data, c.toNat < 128)
    ∧ to_kebab_case (to_kebab_case "UserProfile") = to_kebab_case "UserProfile" :=
  ⟨by decide, C10_to_kebab_case_idempotent "UserProfile" (by decide)⟩

theorem write_modules_go_none (all : List ModuleType) (dir mp : String) (model : Model)
    (l : List ModuleType) (h : ModuleType.PrismaRepository ∈ l) :
    write_modules_go all dir mp model l = none := by
  induction l with
  | nil => cases h
  | cons m rest ih =>
    rcases List.mem_cons.1 h with h1 | h2
    · subst h1
      rfl
    · cases hw : write_modules_one all dir mp model m <;>
        simp [write_modules_go, hw, ih h2]

theorem write_modules_go_eq (all : List ModuleType) (dir mp : String) (model : Model)
    (l : List ModuleType) (h : ModuleType.PrismaRepository ∉ l) :
    write_modules_go all dir mp model l
      = some (List.flatten (l.map
          (fun m => (write_modules_one all dir mp model m).getD []))) := by
  induction l with
  | nil => rfl
  | cons m rest ih =>
    have hm : m ≠ ModuleType.PrismaRepository := by
      rintro rfl
      exact h (List.mem_cons_self _ _)
    have hr := ih (fun hx => h (List.mem_cons_of_mem m hx))
    cases m with
    | PrismaRepository => exact absurd rfl hm
    | Entity => simp [write_modules_go, write_modules_one, hr]
    | Mapper => simp [write_modules_go, write_modules_one, hr]
    | Repository => simp [write_modules_go, write_modules_one, hr]

/-- C7: when the requested list contains Repository, `write_modules` builds
and writes both the abstract repository and the companion PrismaRepository
artifact, computing `has_mapper` as true exactly when Mapper is a member of
the same requested list; a requested list containing PrismaRepository
directly hits the fatal unreachable branch, modelled as `none`. -/
theorem C7_write_modules_repository_companion (modules : List ModuleType)
    (dir mp : String) (model : Model) :
    (ModuleType.PrismaRepository ∈ modules → write_modules modules dir mp model = none)
    ∧ (ModuleType.PrismaRepository ∉ modules → ModuleType.Repository ∈ modules →
        ∃ ws, write_modules modules dir mp model = some ws
          ∧ (build_path dir mp ModuleType.Repository model.name,
              (create_repository model (decide (ModuleType.Mapper ∈ modules))).1) ∈ ws
          ∧ (build_path dir mp ModuleType.PrismaRepository model.name,
              (create_repository model (decide (ModuleType.Mapper ∈ modules))).2) ∈ ws) := by
  constructor
  · intro h
    exact write_modules_go_none modules dir mp model modules h
  · intro hnp hrep
    refine ⟨_, write_modules_go_eq modules dir mp model modules hnp, ?_, ?_⟩
    · refine List.mem_flatten.2
        ⟨(write_modules_one modules dir mp model ModuleType.Repository).getD [], ?_, ?_⟩
      · exact List.mem_map_of_mem _ hrep
      · simp [write_modules_one]
    · refine List.mem_flatten.2
        ⟨(write_modules_one modules dir mp model ModuleType.Repository).getD [], ?_, ?_⟩
      · exact List.mem_map_of_mem _ hrep
      · simp [write_modules_one]

/-- C7 witness: a concrete run requesting Repository together with Mapper
writes both repository artifacts with `has_mapper` true, and the
PrismaRepository kind is absent from that request list. -/
theorem C7_write_modules_repository_companion_witness :
    ModuleType.PrismaRepository ∉ ([ModuleType.Repository, ModuleType.Mapper] : List ModuleType)
    ∧ ModuleType.Repository ∈ ([ModuleType.Repository, ModuleType.Mapper] : List ModuleType)
    ∧ ∃ ws, write_modules [ModuleType.Repository, ModuleType.Mapper] "/out" "billing/"
          ⟨"User", []⟩ = some ws
        ∧ (build_path "/out" "billing/" ModuleType.Repository "User",
            (create_repository ⟨"User", []⟩
              (decide (ModuleType.Mapper ∈
                ([ModuleType.Repository, ModuleType.Mapper] : List ModuleType)))).1) ∈ ws
        ∧ (build_path "/out" "billing/" ModuleType.PrismaRepository "User",
            (create_repository ⟨"User", []⟩
              (decide (ModuleType.Mapper ∈
                ([ModuleType.Repository, ModuleType.Mapper] : List ModuleType)))).2) ∈ ws :=
  ⟨by decide, by decide,
    (C7_write_modules_repository_companion [ModuleType.Repository, ModuleType.Mapper]
      "/out" "billing/" ⟨"User", []⟩).2 (by decide) (by decide)⟩

end CodeGen
